import Mathlib

/-!
Verification of the graze/golang-service middleware components: the URI
normalizer, the response-capture wrapper, the structured and statsd log
sinks, and the API-key authentication middleware.

Machine integers of the source (Go `int`) are modelled as `Nat` (all the
quantities involved — status codes, byte counts, nanosecond durations —
are non-negative and nowhere near overflow in the source's use).
Go `time.Duration` is its underlying nanosecond count, a `Nat`.
Go `error` values are modelled by their message `String`; the opaque
`interface` identity values returned by the Finder collaborator are a
type parameter `Ident`.
-/

/-- Model of Go `url.URL` restricted to the fields the middleware reads:
`Host`, `Path` and `RawQuery`. -/
structure URL where
  host : String
  path : String
  rawQuery : String
  deriving DecidableEq

/-- Model of a Go `time.Time` value as observed by this code: the only
operation performed on it is `Format(time.RFC3339Nano)`, so the model
carries that formatted representation. -/
structure GoTime where
  rfc3339Nano : String
  deriving DecidableEq

/-- Model of the parts of Go `*http.Request` that the middleware reads.
`headers` models the `http.Header` map (`nil` entry = `[]`); `user` models
the identity attached to the request context by `saveUser`. -/
structure Request (Ident : Type) where
  method : String
  proto : String
  protoMajor : Nat
  protoMinor : Nat
  url : URL
  host : String
  headers : String → List String
  user : Option Ident := none

/-- Go `req.Header.Get(k)`: first value for the key, or `""` if absent. -/
def Request.headerGet {Ident : Type} (req : Request Ident) (k : String) : String :=
  (req.headers k).headD ""

/-- Go `req.Referer()`: reads the `Referer` header. -/
def Request.referer {Ident : Type} (req : Request Ident) : String :=
  req.headerGet "Referer"

/-- Modelled from the spec: the URI-normalizer operation `uri(req, target)`
(source function `parseUri`, not present under src/, only its tests).
HTTP/2 CONNECT requests yield the raw host:port authority; otherwise the
path (an empty path normalizing to `/`) followed by `?` and the raw query
when the query is non-empty. -/
def parseUri {Ident : Type} (req : Request Ident) (url : URL) : String :=
  if req.protoMajor = 2 ∧ req.method = "CONNECT" then
    req.host
  else
    let p := if url.path = "" then "/" else url.path
    if url.rawQuery = "" then p else p ++ "?" ++ url.rawQuery

/-- Modelled from the spec: the URI-normalizer operation `path(req, target)`
(source function `uriPath`, not present under src/, only its tests).
Same CONNECT exception; otherwise the path only, any query discarded, an
empty path normalizing to `/`. -/
def uriPath {Ident : Type} (req : Request Ident) (url : URL) : String :=
  if req.protoMajor = 2 ∧ req.method = "CONNECT" then
    req.host
  else
    if url.path = "" then "/" else url.path

/-- One call of the `uri` normalizer viewed as a state transformer on the
request: it returns its result together with the request state after the
call, which the source (a pure function of its arguments) leaves unchanged. -/
def parseUriCall {Ident : Type} (req : Request Ident) (url : URL) :
    String × Request Ident :=
  (parseUri req url, req)

/-- One call of the `path` normalizer viewed as a state transformer on the
request, as in `parseUriCall`. -/
def uriPathCall {Ident : Type} (req : Request Ident) (url : URL) :
    String × Request Ident :=
  (uriPath req url, req)

/-- Modelled from the spec: the state captured by the Response Capture
Wrapper (source type not present under src/): the status code, `none`
while not yet finalized, and the cumulative body byte count. -/
structure CapturedState where
  status : Option Nat
  size : Nat
  deriving DecidableEq

/-- The captured state at the start of response handling. -/
def CapturedState.init : CapturedState :=
  { status := none, size := 0 }

/-- The write operations exposed by the Response Capture Wrapper: set a
header value, write the status code, write body bytes (recorded here by
their byte count). -/
inductive WriteOp
  | setHeader (key value : String)
  | writeHeader (code : Nat)
  | write (bytes : Nat)
  deriving DecidableEq

/-- Modelled from the spec: one write operation applied to the captured
state. A status write records the code only if no status was finalized yet
(first write wins); a body write first implicitly finalizes status 200 if
no status was set, then accumulates the byte count; setting a header value
leaves the captured state unchanged. -/
def applyOp (st : CapturedState) : WriteOp → CapturedState
  | WriteOp.setHeader _ _ => st
  | WriteOp.writeHeader c =>
    match st.status with
    | some _ => st
    | none => { st with status := some c }
  | WriteOp.write n =>
    match st.status with
    | some _ => { st with size := st.size + n }
    | none => { status := some 200, size := st.size + n }

/-- The captured state after a whole request's sequence of writes. -/
def runOps (ops : List WriteOp) : CapturedState :=
  ops.foldl applyOp CapturedState.init

/-- The status code finalized by the first status-finalizing operation of a
sequence: the code of the first explicit status write, or 200 if body bytes
are written first. -/
def firstFinal : List WriteOp → Option Nat
  | [] => none
  | WriteOp.setHeader _ _ :: rest => firstFinal rest
  | WriteOp.writeHeader c :: _ => some c
  | WriteOp.write _ :: _ => some 200

/-- The first explicitly set status code of a sequence of writes, ignoring
body writes. -/
def firstExplicit : List WriteOp → Option Nat
  | [] => none
  | WriteOp.writeHeader c :: _ => some c
  | _ :: rest => firstExplicit rest

/-- The sum of the byte counts of all body writes in a sequence. -/
def sumWrites : List WriteOp → Nat
  | [] => 0
  | WriteOp.write n :: rest => n + sumWrites rest
  | _ :: rest => sumWrites rest

/-- Model of Go `strings.Split(s, " ")`: split around each single space
character; `""` splits to `[""]`, adjacent separators produce empty
tokens. -/
def splitSpaceChars : List Char → List (List Char)
  | [] => [[]]
  | c :: rest =>
    let r := splitSpaceChars rest
    if c = ' ' then [] :: r
    else
      match r with
      | [] => [[c]]
      | g :: gs => (c :: g) :: gs

/-- Model of Go `strings.Split(s, " ")` on strings. -/
def goSplitSpace (s : String) : List String :=
  (splitSpaceChars s.data).map String.mk

/-- The typed authentication error taxonomy of `handlers/auth/apikey.go`:
`NoHeaderError`, `InvalidFormatError{format, header}`,
`BadProviderError{provider, expected}`, `InvalidKeyError{key, err}` (the
wrapped lookup `error` modelled by its message). -/
inductive AuthError
  | noHeaderError
  | invalidFormatError (format header : String)
  | badProviderError (provider expected : String)
  | invalidKeyError (key : String) (err : String)
  deriving DecidableEq

/-- The externally observable actions the API-key middleware can perform,
in order: invoke the `OnError` collaborator with a typed error and an HTTP
status, invoke the Finder collaborator with the key, delegate to the inner
handler with the (possibly identity-carrying) request, or write body bytes
to the response itself. -/
inductive AuthAction (Ident : Type)
  | onError (err : AuthError) (status : Nat)
  | finderCall (key : String)
  | serveInner (req : Request Ident)
  | writeBody (bytes : Nat)

/-- The `auth.APIKey` configuration: the provider name and the Finder
collaborator `Find(value, req) (interface, error)`, modelled as returning
`Except` with the error's message. The `OnError` collaborator is observed
through the `AuthAction.onError` trace events. -/
structure APIKey (Ident : Type) where
  Provider : String
  Finder : String → Request Ident → Except String Ident

/-- Modelled from the spec: `saveUser` (not present under src/) attaches
the identity returned by the Finder to the request for the remainder of
its lifecycle. -/
def saveUser {Ident : Type} (req : Request Ident) (user : Ident) : Request Ident :=
  { req with user := some user }

/-- The `(*APIKey).Handler` request flow of `handlers/auth/apikey.go`,
lines 121-150, as the ordered trace of collaborator actions it performs:
no `Authorization` header → `NoHeaderError` at 401; a value that does not
split on `" "` into exactly two parts → `InvalidFormatError` at 401;
provider mismatch → `BadProviderError` at 401; a Finder error →
`InvalidKeyError` at 401 after the Finder call; otherwise the inner
handler is served with the identity attached by `saveUser`. -/
def APIKey.Handler {Ident : Type} (a : APIKey Ident) (req : Request Ident) :
    List (AuthAction Ident) :=
  match req.headers "Authorization" with
  | [] => [AuthAction.onError AuthError.noHeaderError 401]
  | h0 :: _ =>
    let parts := goSplitSpace h0
    if hp : parts.length = 2 then
      let provider := parts.get ⟨0, by omega⟩
      let value := parts.get ⟨1, by omega⟩
      if provider = a.Provider then
        AuthAction.finderCall value ::
          (match a.Finder value req with
           | Except.error e => [AuthAction.onError (AuthError.invalidKeyError value e) 401]
           | Except.ok user => [AuthAction.serveInner (saveUser req user)])
      else
        [AuthAction.onError (AuthError.badProviderError provider a.Provider) 401]
    else
      [AuthAction.onError (AuthError.invalidFormatError "<provider> <apiKey>" h0) 401]

/-- Whether an action is an invocation of the `OnError` collaborator. -/
def isOnError {Ident : Type} : AuthAction Ident → Bool
  | AuthAction.onError _ _ => true
  | _ => false

/-- How many times a trace invokes the `OnError` collaborator. -/
def countOnError {Ident : Type} (tr : List (AuthAction Ident)) : Nat :=
  (tr.filter isOnError).length

/-- A value stored in a structured log field: a string, a Go `int`
(modelled as `Nat`), or the floating-point duration in seconds (modelled
as the exact rational the source's division denotes). -/
inductive FieldValue
  | str (s : String)
  | nat (n : Nat)
  | rat (q : ℚ)
  deriving DecidableEq

/-- Model of `log.LogContext` / `log.F` data: an ordered list of field
bindings, later bindings overriding earlier ones of the same key. -/
abbrev LogContext : Type :=
  List (String × FieldValue)

/-- Modelled from the spec: `LogContext.With` (source `log` package not
present under src/) merges additional fields into a context, the fields
added later overriding earlier ones of the same key — so event fields
applied after caller context fields win. The merge is modelled by list
append, with lookups taking the latest binding. -/
def LogContext.With (base extra : LogContext) : LogContext :=
  base ++ extra

/-- The value a field mapping holds for a key: the latest binding wins,
`none` when the key is absent. -/
def lookupField : List (String × FieldValue) → String → Option FieldValue
  | [], _ => none
  | p :: rest, k =>
    match lookupField rest k with
    | some v => some v
    | none => if p.1 = k then some p.2 else none

/-- The side of `LoggingResponseWriter` the structured sink reads: the
log context attached to the response writer (`GetContext`). -/
structure LoggingResponseWriter where
  getContext : LogContext

/-- One structured record as handed to the logging backend: severity
level, the merged field mapping and the formatted summary message. -/
structure LogRecord where
  level : String
  fields : List (String × FieldValue)
  message : String

/-- The per-request event fields of `writeStructuredLog`
(src/unnamed/part_001, lines 40-60): the `log.F` literal passed to the
final `With`, with `dur` the nanosecond count divided by
nanoseconds-per-second and `ts` the RFC3339Nano-formatted timestamp. -/
def eventFields {Ident : Type} (req : Request Ident) (url : URL) (ts : GoTime)
    (dur status size : Nat) : LogContext :=
  [ ("tag", FieldValue.str "request_handled"),
    ("http.method", FieldValue.str req.method),
    ("http.protocol", FieldValue.str req.proto),
    ("http.uri", FieldValue.str (parseUri req url)),
    ("http.path", FieldValue.str (uriPath req url)),
    ("http.host", FieldValue.str req.host),
    ("http.status", FieldValue.nat status),
    ("http.bytes", FieldValue.nat size),
    ("dur", FieldValue.rat ((dur : ℚ) / 1000000000)),
    ("ts", FieldValue.str ts.rfc3339Nano),
    ("http.ref", FieldValue.str req.referer),
    ("http.user", FieldValue.str (req.headerGet "X-Forwarded-For")) ]

/-- The fixed keys of the per-request event fields. -/
def eventKeys : List String :=
  [ "tag", "http.method", "http.protocol", "http.uri", "http.path",
    "http.host", "http.status", "http.bytes", "dur", "ts",
    "http.ref", "http.user" ]

/-- `writeStructuredLog` (src/unnamed/part_001, lines 40-60) as the list
of records it emits: one `Infof` record whose fields are the writer's
context, merged with the caller context, merged with the per-request
event fields, and whose message is `"<method> <uri> <protocol>"`. -/
def writeStructuredLog {Ident : Type} (w : LoggingResponseWriter)
    (context : LogContext) (req : Request Ident) (url : URL) (ts : GoTime)
    (dur status size : Nat) : List LogRecord :=
  let uri := parseUri req url
  [ { level := "info"
    , fields :=
        LogContext.With (LogContext.With w.getContext context)
          (eventFields req url ts dur status size)
    , message := req.method ++ " " ++ uri ++ " " ++ req.proto } ]

/-- Zero-pad a number to six digits, as the fractional part of the Go
`%f` float rendering. -/
def padZeros6 (n : Nat) : String :=
  let s := toString n
  String.mk (List.replicate (6 - s.length) '0') ++ s

/-- A nanosecond duration rendered as milliseconds with exactly six
fractional digits, the Go `%f` rendering of `dur` in milliseconds (exact,
since a nanosecond count has at most six fractional millisecond digits). -/
def formatMillis (durNs : Nat) : String :=
  toString (durNs / 1000000) ++ "." ++ padZeros6 (durNs % 1000000)

/-- The statsd client configuration applied by the metrics transport:
a namespace prepended to metric names and static tags prepended to each
metric's tag list. -/
structure StatsdClient where
  Namespace : String
  Tags : List String

/-- The tag section of a statsd line: the client's static tags followed by
`endpoint:<path-only normalization>`, `statusCode:<status>`,
`method:<method>`, comma-separated. -/
def statsdTags {Ident : Type} (c : StatsdClient) (req : Request Ident)
    (url : URL) (status : Nat) : String :=
  String.intercalate ","
    (c.Tags ++
      [ "endpoint:" ++ uriPath req url,
        "statusCode:" ++ toString status,
        "method:" ++ req.method ])

/-- Modelled from the spec: `writeStatsdLog` (not present under src/, only
its test src/unnamed/part_003) as the list of datagram lines handed to the
metrics transport: a timing line `request.response_time` with the duration
in milliseconds to six fractional digits and unit `ms`, then a counter
line `request.count:1|c`, both carrying the same tags. -/
def writeStatsdLog {Ident : Type} (c : StatsdClient) (req : Request Ident)
    (url : URL) (ts : GoTime) (durNs : Nat) (status size : Nat) : List String :=
  [ c.Namespace ++ "request.response_time:" ++ formatMillis durNs ++ "|ms|#" ++
      statsdTags c req url status,
    c.Namespace ++ "request.count:1|c|#" ++ statsdTags c req url status ]

/-- A header map holding only an `Authorization` entry, for concrete
instantiations. -/
def demoHeaders (auth : List String) : String → List String :=
  fun k => if k = "Authorization" then auth else []

/-- A concrete GET request with the given `Authorization` values. -/
def demoReq (auth : List String) : Request Unit :=
  { method := "GET", proto := "HTTP/1.1", protoMajor := 1, protoMinor := 1,
    url := { host := "example.com", path := "/", rawQuery := "" },
    host := "example.com", headers := demoHeaders auth }

/-- A concrete GET request with the given path and raw query, mirroring
the requests of the source tests in src/unnamed/part_000. -/
def getReq (p q : String) : Request Unit :=
  { method := "GET", proto := "HTTP/1.1", protoMajor := 1, protoMinor := 1,
    url := { host := "example.com", path := p, rawQuery := q },
    host := "example.com", headers := fun _ => [] }

/-- The HTTP/2 CONNECT request of the source tests in
src/unnamed/part_000. -/
def connectReq : Request Unit :=
  { method := "CONNECT", proto := "HTTP/2.0", protoMajor := 2, protoMinor := 0,
    url := { host := "www.example.com:443", path := "", rawQuery := "" },
    host := "www.example.com:443", headers := fun _ => [] }

/-- A concrete Finder accepting exactly the key `goodkey`, as in the
source's usage examples. -/
def demoFinder : String → Request Unit → Except String Unit :=
  fun key _ =>
    if key = "goodkey" then Except.ok ()
    else Except.error ("No user found for: " ++ key)

/-- A concrete `APIKey` configuration with provider `Graze`. -/
def demoKey : APIKey Unit :=
  { Provider := "Graze", Finder := demoFinder }

/-- The URI normalizations of the model agree with every test vector of
`TestParseUri` and `TestUriPath` in src/unnamed/part_000. -/
theorem uri_normalizer_matches_source_tests :
    parseUri (getReq "" "") (getReq "" "").url = "/" ∧
    parseUri connectReq connectReq.url = "www.example.com:443" ∧
    parseUri (getReq "/path" "query=value") (getReq "/path" "query=value").url
      = "/path?query=value" ∧
    parseUri (getReq "/path" "") (getReq "/path" "").url = "/path" ∧
    uriPath (getReq "" "") (getReq "" "").url = "/" ∧
    uriPath connectReq connectReq.url = "www.example.com:443" ∧
    uriPath (getReq "/path" "query=value") (getReq "/path" "query=value").url
      = "/path" ∧
    uriPath (getReq "/path" "") (getReq "/path" "").url = "/path" := by
  decide

/-- C2: for protocol major version 2 with method CONNECT both `uri` and
`path` return the raw host:port authority unchanged; otherwise `path` is
the path only (empty path normalizing to `/`) and `uri` is that path
followed by `?` and the raw query exactly when the query is non-empty. -/
theorem uri_normalization (Ident : Type) (req : Request Ident) (url : URL) :
    (req.protoMajor = 2 ∧ req.method = "CONNECT" →
      parseUri req url = req.host ∧ uriPath req url = req.host) ∧
    (¬(req.protoMajor = 2 ∧ req.method = "CONNECT") →
      uriPath req url = (if url.path = "" then "/" else url.path) ∧
      (url.rawQuery = "" → parseUri req url = uriPath req url) ∧
      (url.rawQuery ≠ "" →
        parseUri req url = uriPath req url ++ "?" ++ url.rawQuery)) := by
  refine ⟨fun h => ?_, fun h => ⟨?_, fun hq => ?_, fun hq => ?_⟩⟩
  · simp [parseUri, uriPath, h]
  · simp [uriPath, h]
  · simp [parseUri, uriPath, h, hq]
  · simp [parseUri, uriPath, h, hq]

/-- Witness for `uri_normalization` at the concrete HTTP/2 CONNECT request
of the source tests. -/
theorem uri_normalization_witness :
    parseUri connectReq connectReq.url = "www.example.com:443" ∧
    uriPath connectReq connectReq.url = "www.example.com:443" :=
  (uri_normalization Unit connectReq connectReq.url).1 ⟨rfl, rfl⟩

/-- C9: the URI normalizer operations are pure and stateless — a call
leaves the request unchanged, and a second call on the request state
returned by the first yields the identical result. -/
theorem uri_normalizer_idempotent (Ident : Type) (req : Request Ident) (url : URL) :
    (parseUriCall req url).2 = req ∧
    (parseUriCall (parseUriCall req url).2 url).1 = (parseUriCall req url).1 ∧
    (uriPathCall req url).2 = req ∧
    (uriPathCall (uriPathCall req url).2 url).1 = (uriPathCall req url).1 :=
  ⟨rfl, rfl, rfl, rfl⟩

/-- The status captured after folding a write sequence from any starting
state: an already finalized status is kept, otherwise the first
status-finalizing operation of the sequence decides. -/
theorem foldl_applyOp_status (ops : List WriteOp) (st : CapturedState) :
    (ops.foldl applyOp st).status =
      Option.elim st.status (firstFinal ops) some := by
  induction ops generalizing st with
  | nil => cases hs : st.status <;> simp [firstFinal, hs]
  | cons op rest ih =>
    cases op with
    | setHeader k v =>
      simpa [applyOp, firstFinal] using ih st
    | writeHeader c =>
      cases hs : st.status <;>
        simp [List.foldl_cons, applyOp, hs, ih, firstFinal]
    | write n =>
      cases hs : st.status <;>
        simp [List.foldl_cons, applyOp, hs, ih, firstFinal]

/-- The size captured after folding a write sequence from any starting
state: the starting size plus the bytes of all body writes. -/
theorem foldl_applyOp_size (ops : List WriteOp) (st : CapturedState) :
    (ops.foldl applyOp st).size = st.size + sumWrites ops := by
  induction ops generalizing st with
  | nil => simp [sumWrites]
  | cons op rest ih =>
    cases op with
    | setHeader k v =>
      simpa [applyOp, sumWrites] using ih st
    | writeHeader c =>
      cases hs : st.status <;>
        simp [List.foldl_cons, applyOp, hs, ih, sumWrites]
    | write n =>
      cases hs : st.status <;>
        · simp [List.foldl_cons, applyOp, hs, ih, sumWrites]
          omega

/-- C1 counterexample: in the sequence that writes one body byte and then
explicitly writes status 404, the first explicitly set status code is 404
and body bytes were written, yet the captured status is the implicit 200
finalized at the first body write, not 404. -/
theorem capture_first_explicit_counterexample :
    firstExplicit [WriteOp.write 1, WriteOp.writeHeader 404] = some 404 ∧
    sumWrites [WriteOp.write 1, WriteOp.writeHeader 404] = 1 ∧
    (runOps [WriteOp.write 1, WriteOp.writeHeader 404]).status = some 200 ∧
    (runOps [WriteOp.write 1, WriteOp.writeHeader 404]).status ≠ some 404 := by
  decide

/-- C1 (amended): for every sequence of write operations, the final
captured status equals the code of the first status-finalizing operation —
the first explicitly set status code if it precedes any body write, or 200
if body bytes are written before any explicit status — and the final
captured size equals the sum of the byte counts of all body writes. -/
theorem capture_status_first_final_size_sum (ops : List WriteOp) :
    (runOps ops).status = firstFinal ops ∧
    (runOps ops).size = sumWrites ops := by
  refine ⟨?_, ?_⟩
  · simpa [CapturedState.init] using foldl_applyOp_status ops CapturedState.init
  · simpa [CapturedState.init] using foldl_applyOp_size ops CapturedState.init

/-- Every trace of the API-key middleware has one of three shapes: a
single `OnError` invocation at 401, a Finder call followed by an `OnError`
invocation at 401, or a Finder call followed by delegation to the inner
handler. -/
theorem handler_shape (Ident : Type) (a : APIKey Ident) (req : Request Ident) :
    (∃ err, a.Handler req = [AuthAction.onError err 401]) ∨
    (∃ k err, a.Handler req =
      [AuthAction.finderCall k, AuthAction.onError err 401]) ∨
    (∃ k r, a.Handler req =
      [AuthAction.finderCall k, AuthAction.serveInner r]) := by
  cases hA : req.headers "Authorization" with
  | nil =>
    exact Or.inl ⟨AuthError.noHeaderError, by simp [APIKey.Handler, hA]⟩
  | cons h0 t =>
    rcases hsp : goSplitSpace h0 with _ | ⟨p, _ | ⟨k, _ | ⟨x, xs⟩⟩⟩
    · exact Or.inl ⟨AuthError.invalidFormatError "<provider> <apiKey>" h0,
        by simp [APIKey.Handler, hA, hsp]⟩
    · exact Or.inl ⟨AuthError.invalidFormatError "<provider> <apiKey>" h0,
        by simp [APIKey.Handler, hA, hsp]⟩
    · by_cases hprov : p = a.Provider
      · cases hf : a.Finder k req with
        | error e =>
          exact Or.inr (Or.inl ⟨k, AuthError.invalidKeyError k e,
            by simp [APIKey.Handler, hA, hsp, hprov, hf]⟩)
        | ok u =>
          exact Or.inr (Or.inr ⟨k, saveUser req u,
            by simp [APIKey.Handler, hA, hsp, hprov, hf]⟩)
      · exact Or.inl ⟨AuthError.badProviderError p a.Provider,
          by simp [APIKey.Handler, hA, hsp, hprov]⟩
    · exact Or.inl ⟨AuthError.invalidFormatError "<provider> <apiKey>" h0,
        by simp [APIKey.Handler, hA, hsp]⟩

/-- C4: a request without an `Authorization` header fails with
`NoHeaderError` at 401 as the middleware's only action (so the inner
handler is not invoked); a present header value that does not split on a
space into exactly two tokens fails with `InvalidFormatError` at 401 as
the only action. -/
theorem apikey_noheader_invalidformat (Ident : Type) (a : APIKey Ident)
    (req : Request Ident) :
    (req.headers "Authorization" = [] →
      a.Handler req = [AuthAction.onError AuthError.noHeaderError 401]) ∧
    (∀ h0 t, req.headers "Authorization" = h0 :: t →
      (goSplitSpace h0).length ≠ 2 →
      a.Handler req =
        [AuthAction.onError
          (AuthError.invalidFormatError "<provider> <apiKey>" h0) 401]) := by
  constructor
  · intro hA
    simp [APIKey.Handler, hA]
  · intro h0 t hA hl
    simp [APIKey.Handler, hA, hl]

/-- Witness for `apikey_noheader_invalidformat`: the missing-header and
`onlyonetoken` cases of the source's documented behavior. -/
theorem apikey_noheader_invalidformat_witness :
    demoKey.Handler (demoReq []) =
      [AuthAction.onError AuthError.noHeaderError 401] ∧
    demoKey.Handler (demoReq ["onlyonetoken"]) =
      [AuthAction.onError
        (AuthError.invalidFormatError "<provider> <apiKey>" "onlyonetoken") 401] :=
  ⟨(apikey_noheader_invalidformat Unit demoKey (demoReq [])).1 rfl,
   (apikey_noheader_invalidformat Unit demoKey
      (demoReq ["onlyonetoken"])).2 "onlyonetoken" [] rfl (by decide)⟩

/-- C3: on every request, the middleware itself never writes body bytes to
the response, and whenever it invokes the `OnError` collaborator the
status passed is 401 and the collaborator is invoked exactly once in the
request's trace. -/
theorem apikey_onerror_once_401 (Ident : Type) (a : APIKey Ident)
    (req : Request Ident) :
    (∀ n, AuthAction.writeBody n ∉ a.Handler req) ∧
    (∀ err s, AuthAction.onError err s ∈ a.Handler req →
      s = 401 ∧ countOnError (a.Handler req) = 1) := by
  rcases handler_shape Ident a req with ⟨err0, heq⟩ | ⟨k0, err0, heq⟩ | ⟨k0, r0, heq⟩
  · constructor
    · intro n
      rw [heq]
      simp
    · intro err s hmem
      rw [heq] at hmem
      simp at hmem
      rw [heq]
      exact ⟨hmem.2, by simp [countOnError, isOnError]⟩
  · constructor
    · intro n
      rw [heq]
      simp
    · intro err s hmem
      rw [heq] at hmem
      simp at hmem
      rw [heq]
      exact ⟨hmem.2, by simp [countOnError, isOnError, List.filter]⟩
  · constructor
    · intro n
      rw [heq]
      simp
    · intro err s hmem
      rw [heq] at hmem
      simp at hmem

/-- Witness for `apikey_onerror_once_401` at the concrete request with no
`Authorization` header. -/
theorem apikey_onerror_once_401_witness :
    (401 : Nat) = 401 ∧ countOnError (demoKey.Handler (demoReq [])) = 1 :=
  (apikey_onerror_once_401 Unit demoKey (demoReq [])).2
    AuthError.noHeaderError 401 (List.Mem.head _)

/-- C5: once the header splits into `(provider, key)` — a provider
differing from the configured one fails with `BadProviderError` at 401
without calling the Finder; with the configured provider the Finder is
called with the key, a Finder error fails with `InvalidKeyError` wrapping
it at 401 without serving the inner handler, and a Finder success serves
the inner handler with the identity attached and never invokes the error
handler. -/
theorem apikey_provider_finder_flow (Ident : Type) (a : APIKey Ident)
    (req : Request Ident) (h0 : String) (t : List String) (p k : String) :
    req.headers "Authorization" = h0 :: t →
    goSplitSpace h0 = [p, k] →
    ((p ≠ a.Provider →
        a.Handler req =
          [AuthAction.onError (AuthError.badProviderError p a.Provider) 401]) ∧
     (p = a.Provider →
        (∀ e, a.Finder k req = Except.error e →
          a.Handler req =
            [AuthAction.finderCall k,
             AuthAction.onError (AuthError.invalidKeyError k e) 401]) ∧
        (∀ u, a.Finder k req = Except.ok u →
          a.Handler req =
            [AuthAction.finderCall k,
             AuthAction.serveInner (saveUser req u)] ∧
          (saveUser req u).user = some u))) := by
  intro hA hsp
  refine ⟨fun hp => ?_, fun hp => ⟨fun e he => ?_, fun u hu => ⟨?_, rfl⟩⟩⟩
  · simp [APIKey.Handler, hA, hsp, hp]
  · simp [APIKey.Handler, hA, hsp, hp, he]
  · simp [APIKey.Handler, hA, hsp, hp, hu]

/-- Witness for `apikey_provider_finder_flow`: the `Graze goodkey` success
case with the demo Finder — the Finder is called, the inner handler is
served, and the identity is attached. -/
theorem apikey_provider_finder_flow_witness :
    demoKey.Handler (demoReq ["Graze goodkey"]) =
      [AuthAction.finderCall "goodkey",
       AuthAction.serveInner (saveUser (demoReq ["Graze goodkey"]) ())] ∧
    (saveUser (demoReq ["Graze goodkey"]) ()).user = some () :=
  ((apikey_provider_finder_flow Unit demoKey (demoReq ["Graze goodkey"])
      "Graze goodkey" [] "Graze" "goodkey" rfl (by decide)).2 rfl).2 () rfl

/-- C10: a present `Authorization` header whose value is the empty string
fails with `InvalidFormatError` carrying the received header `""` at 401;
`NoHeaderError` is never produced when an `Authorization` header value is
present. -/
theorem apikey_empty_header_invalid_format (Ident : Type) (a : APIKey Ident)
    (req : Request Ident) :
    (∀ t, req.headers "Authorization" = "" :: t →
      a.Handler req =
        [AuthAction.onError
          (AuthError.invalidFormatError "<provider> <apiKey>" "") 401]) ∧
    (∀ h0 t, req.headers "Authorization" = h0 :: t →
      ∀ s, AuthAction.onError AuthError.noHeaderError s ∉ a.Handler req) := by
  constructor
  · intro t hA
    have hl : (goSplitSpace "").length ≠ 2 := by decide
    simp [APIKey.Handler, hA, hl]
  · intro h0 t hA s hmem
    rcases hsp : goSplitSpace h0 with _ | ⟨p, _ | ⟨k, _ | ⟨x, xs⟩⟩⟩
    · simp [APIKey.Handler, hA, hsp] at hmem
    · simp [APIKey.Handler, hA, hsp] at hmem
    · by_cases hprov : p = a.Provider
      · cases hf : a.Finder k req with
        | error e => simp [APIKey.Handler, hA, hsp, hprov, hf] at hmem
        | ok u => simp [APIKey.Handler, hA, hsp, hprov, hf] at hmem
      · simp [APIKey.Handler, hA, hsp, hprov] at hmem
    · simp [APIKey.Handler, hA, hsp] at hmem

/-- Witness for `apikey_empty_header_invalid_format` at the concrete
request carrying `Authorization: ""`. -/
theorem apikey_empty_header_invalid_format_witness :
    demoKey.Handler (demoReq [""]) =
      [AuthAction.onError
        (AuthError.invalidFormatError "<provider> <apiKey>" "") 401] :=
  (apikey_empty_header_invalid_format Unit demoKey (demoReq [""])).1 [] rfl

/-- Looking a key up in an appended field list: a binding in the later
list wins, and the earlier list is consulted only when the later list has
no binding for the key. -/
theorem lookupField_append (l1 l2 : List (String × FieldValue)) (k : String) :
    lookupField (l1 ++ l2) k =
      Option.elim (lookupField l2 k) (lookupField l1 k) some := by
  induction l1 with
  | nil =>
    cases h2 : lookupField l2 k <;> simp [lookupField, h2]
  | cons p rest ih =>
    simp only [List.cons_append, lookupField, List.append_eq]
    rw [ih]
    cases h2 : lookupField l2 k <;> cases hr : lookupField rest k <;>
      simp [h2, hr]

/-- The ambient log context attached to the response writer in the
concrete instantiations. -/
def demoWriter : LoggingResponseWriter :=
  { getContext := [("module", FieldValue.str "request.handler")] }

/-- A caller-supplied ambient context whose `http.status` binding clashes
with a per-request event field. -/
def demoCtx : LogContext :=
  [("http.status", FieldValue.nat 999), ("app", FieldValue.str "demo")]

/-- A concrete formatted timestamp. -/
def demoTime : GoTime :=
  { rfc3339Nano := "1983-05-26T03:30:45.736+01:00" }

/-- C7: the structured sink emits exactly one record, at informational
level, with summary `"<method> <uri> <protocol>"`, whose `dur` field is
the duration's nanoseconds divided by nanoseconds-per-second, whose field
mapping binds every one of the twelve fixed event keys, and which is
identical on identical input. -/
theorem structured_log_single_record (Ident : Type) (w : LoggingResponseWriter)
    (context : LogContext) (req : Request Ident) (url : URL) (ts : GoTime)
    (dur status size : Nat) :
    (writeStructuredLog w context req url ts dur status size).length = 1 ∧
    (∀ r, r ∈ writeStructuredLog w context req url ts dur status size →
      r.level = "info" ∧
      r.message = req.method ++ " " ++ parseUri req url ++ " " ++ req.proto ∧
      lookupField r.fields "dur" =
        some (FieldValue.rat ((dur : ℚ) / 1000000000)) ∧
      (∀ k, k ∈ eventKeys → (lookupField r.fields k).isSome = true)) ∧
    writeStructuredLog w context req url ts dur status size =
      writeStructuredLog w context req url ts dur status size := by
  refine ⟨rfl, ?_, rfl⟩
  intro r hr
  simp only [writeStructuredLog, List.mem_singleton] at hr
  subst hr
  refine ⟨rfl, rfl, ?_, ?_⟩
  · show lookupField
      (LogContext.With (LogContext.With w.getContext context)
        (eventFields req url ts dur status size)) "dur" = _
    simp only [LogContext.With]
    rw [lookupField_append]
    rfl
  · intro k hk
    show (lookupField
      (LogContext.With (LogContext.With w.getContext context)
        (eventFields req url ts dur status size)) k).isSome = true
    simp only [LogContext.With]
    rw [lookupField_append]
    simp only [eventKeys, List.mem_cons, List.not_mem_nil, or_false] at hk
    rcases hk with rfl | rfl | rfl | rfl | rfl | rfl | rfl | rfl | rfl | rfl | rfl | rfl <;>
      rfl

/-- Witness for `structured_log_single_record` at a concrete request. -/
theorem structured_log_single_record_witness :
    ((writeStructuredLog demoWriter demoCtx (demoReq []) (demoReq []).url
        demoTime 302000000 200 100).headD ⟨"", [], ""⟩).level = "info" ∧
    lookupField
      ((writeStructuredLog demoWriter demoCtx (demoReq []) (demoReq []).url
          demoTime 302000000 200 100).headD ⟨"", [], ""⟩).fields "dur" =
      some (FieldValue.rat ((302000000 : ℚ) / 1000000000)) :=
  ⟨((structured_log_single_record Unit demoWriter demoCtx (demoReq [])
      (demoReq []).url demoTime 302000000 200 100).2.1 _ (List.Mem.head _)).1,
   ((structured_log_single_record Unit demoWriter demoCtx (demoReq [])
      (demoReq []).url demoTime 302000000 200 100).2.1 _ (List.Mem.head _)).2.2.1⟩

/-- C8: merging caller-supplied context fields never overrides a
per-request event field — for every caller context and every fixed event
key, the emitted record's value at that key equals the event's value. -/
theorem structured_context_no_override (Ident : Type) (w : LoggingResponseWriter)
    (context : LogContext) (req : Request Ident) (url : URL) (ts : GoTime)
    (dur status size : Nat) :
    ∀ r, r ∈ writeStructuredLog w context req url ts dur status size →
      ∀ k, k ∈ eventKeys →
        lookupField r.fields k =
          lookupField (eventFields req url ts dur status size) k := by
  intro r hr k hk
  simp only [writeStructuredLog, List.mem_singleton] at hr
  subst hr
  show lookupField
    (LogContext.With (LogContext.With w.getContext context)
      (eventFields req url ts dur status size)) k = _
  simp only [LogContext.With]
  rw [lookupField_append]
  simp only [eventKeys, List.mem_cons, List.not_mem_nil, or_false] at hk
  rcases hk with rfl | rfl | rfl | rfl | rfl | rfl | rfl | rfl | rfl | rfl | rfl | rfl <;>
    rfl

/-- Witness for `structured_context_no_override`: the demo caller context
binds `http.status` to 999, yet the emitted record keeps the event's
status 200. -/
theorem structured_context_no_override_witness :
    lookupField
      ((writeStructuredLog demoWriter demoCtx (demoReq []) (demoReq []).url
          demoTime 302000000 200 100).headD ⟨"", [], ""⟩).fields "http.status" =
      lookupField
        (eventFields (demoReq []) (demoReq []).url demoTime 302000000 200 100)
        "http.status" ∧
    lookupField
      (eventFields (demoReq []) (demoReq []).url demoTime 302000000 200 100)
      "http.status" = some (FieldValue.nat 200) :=
  ⟨structured_context_no_override Unit demoWriter demoCtx (demoReq [])
      (demoReq []).url demoTime 302000000 200 100 _ (List.Mem.head _)
      "http.status" (by simp [eventKeys]),
   rfl⟩

/-- C6: the statsd sink emits exactly two datagram lines — the
`request.response_time` timing with the duration in milliseconds to six
fractional digits and unit `ms`, then the `request.count:1|c` counter —
both tagged `endpoint:` with the path-only normalization (no query
string), `statusCode:` and `method:`; on method GET, path `/`, status
200, duration 302ms and static tag `test` the lines are exactly those of
the specification's example. -/
theorem statsd_two_lines (Ident : Type) (c : StatsdClient) (req : Request Ident)
    (url : URL) (ts : GoTime) (durNs status size : Nat) :
    ((writeStatsdLog c req url ts durNs status size).length = 2 ∧
     writeStatsdLog c req url ts durNs status size =
       [ c.Namespace ++ "request.response_time:" ++ formatMillis durNs ++
           "|ms|#" ++ String.intercalate ","
             (c.Tags ++
               [ "endpoint:" ++ uriPath req url,
                 "statusCode:" ++ toString status,
                 "method:" ++ req.method ]),
         c.Namespace ++ "request.count:1|c|#" ++ String.intercalate ","
           (c.Tags ++
             [ "endpoint:" ++ uriPath req url,
               "statusCode:" ++ toString status,
               "method:" ++ req.method ]) ]) ∧
    writeStatsdLog ⟨"", ["test"]⟩ (demoReq []) (demoReq []).url demoTime
        302000000 200 100 =
      [ "request.response_time:302.000000|ms|#test,endpoint:/,statusCode:200,method:GET",
        "request.count:1|c|#test,endpoint:/,statusCode:200,method:GET" ] ∧
    writeStatsdLog ⟨"", ["test"]⟩ (getReq "/path" "query=value")
        (getReq "/path" "query=value").url demoTime 302000000 200 100 =
      [ "request.response_time:302.000000|ms|#test,endpoint:/path,statusCode:200,method:GET",
        "request.count:1|c|#test,endpoint:/path,statusCode:200,method:GET" ] :=
  ⟨⟨rfl, rfl⟩, by decide, by decide⟩

/-- The statsd sink model reproduces the first expected message pair of
`TestStatsdLogging` in src/unnamed/part_003, namespace and static client
tag included. -/
theorem statsd_matches_source_test :
    writeStatsdLog ⟨"service.logging.live.", ["test"]⟩ (demoReq [])
        (demoReq []).url demoTime 302000000 200 100 =
      [ "service.logging.live.request.response_time:302.000000|ms|#test,endpoint:/,statusCode:200,method:GET",
        "service.logging.live.request.count:1|c|#test,endpoint:/,statusCode:200,method:GET" ] := by
  decide
